import Mathlib

/-!
Shallow embedding of `src/registration-bot/main.py`.

The program is a schema-driven registration dialogue: it iterates a fixed
list of field definitions (`SCHEMA`), reads one line of user input per turn,
recognises the keywords "quit" and "help", validates non-empty input with
`re.match`, accumulates answers in an insertion-ordered dict, asks an LLM
gateway (`llm`) for field explanations and a final summary, and emits the
answers as JSON after a "yes" confirmation.

Modelling decisions:
* User input is a `List String` of lines consumed in order; running out of
  lines is the `outOfInput` outcome (Python would raise `EOFError`).
* The OpenAI chat-completion transport behind `llm` is a parameter
  `svc : List Msg → Except String (Option String)`: `Except.error e` models a
  raised exception with message `e`, `Except.ok c` models a successful reply
  whose `message.content` is `c` (`none` models a null content).
* Python `str.strip` / `str.lower` are modelled on the ASCII fragment
  (`pyStrip`, `pyLower`); all strings handled by the program are ASCII.
* Python `re.match` is modelled by a small regex interpreter (`Rx`,
  `matchRem`) covering the constructs the schema patterns use: character
  classes, bounded/unbounded repetition and the `$` anchor.  `re.match`
  anchors at position 0 and succeeds as soon as some match starting there
  exists; `matchRem` returns the list of possible unconsumed suffixes, so
  `re.match(p, v) is not None` becomes `matchRem p v.data ≠ []`.
* The Python dict `answers` is an insertion-ordered association list;
  `dictInsert` mirrors dict assignment (update in place if present,
  append otherwise).  `json.dumps` iterates that order (`jsonDumps`).
* Calls made to the gateway are recorded in `Session.calls`, and invocations
  of the validator `is_valid` in `Session.validCalls`, so that theorems can
  speak about which calls a turn performs.
-/

namespace RegBot

set_option maxRecDepth 16384

/-- The whitespace characters recognised by Python `str.strip` and `\s`
(ASCII fragment). -/
def wsChars : List Char := [' ', '\t', '\n', '\r', '\x0b', '\x0c']

def isPySpace (c : Char) : Bool := wsChars.contains c

/-- Python `str.strip()` (ASCII whitespace): drop whitespace from both ends. -/
def pyStrip (s : String) : String :=
  ⟨((s.data.dropWhile isPySpace).reverse.dropWhile isPySpace).reverse⟩

def lowerChar (c : Char) : Char :=
  if 'A' ≤ c ∧ c ≤ 'Z' then Char.ofNat (c.toNat + 32) else c

/-- Python `str.lower()` on the ASCII fragment. -/
def pyLower (s : String) : String := ⟨s.data.map lowerChar⟩

/-- A chat message `{"role": ..., "content": ...}`. -/
structure Msg where
  role : String
  content : String
deriving DecidableEq

/-- The transport behind the OpenAI client: given the message list, either a
reply content (possibly null) or a raised exception's message. -/
def ServiceFun := List Msg → Except String (Option String)

/-- `llm(messages)`: call the chat completion; on success return the content
(or `""` for null) stripped, on any exception return the readable
placeholder instead of propagating. -/
def llm (svc : ServiceFun) (messages : List Msg) : String :=
  match svc messages with
  | .ok content => pyStrip (content.getD "")
  | .error e => "(LLM error: " ++ e ++ ")"

def SYSTEM_PROMPT : String :=
  "You are RegBot, a concise, friendly English-speaking registration assistant for a brokerage.\n" ++
  "- Guide the user through KYC/registration step-by-step.\n" ++
  "- Be short, clear, neutral. Ask for missing/invalid fields if needed.\n" ++
  "- If user types \x27help\x27, explain ONLY the CURRENT field in simple words.\n" ++
  "- NEVER invent values. NEVER submit without explicit user confirmation.\n" ++
  "- When all required fields are collected, produce a short human summary (not JSON).\n" ++
  "Language: English.\n"

def sysMsg : Msg := ⟨"system", SYSTEM_PROMPT⟩

/-! ## Regex interpreter (the fragment used by `SCHEMA` patterns) -/

/-- A character class: a union of ranges plus extra single characters, or
`.` (any character except a newline). -/
inductive CClass where
  | ranges (rs : List (Char × Char)) (extra : List Char)
  | dot
deriving DecidableEq

def memC : CClass → Char → Bool
  | .ranges rs extra, c => rs.any (fun ab => decide (ab.1 ≤ c ∧ c ≤ ab.2)) || extra.contains c
  | .dot, c => c != '\n'

/-- Regex abstract syntax: empty, one class character, sequencing, counted
repetition of a class (`{lo,}` when `hi = none`, `{lo,hi}` otherwise) and the
`$` anchor.  The leading `^` of the schema patterns is implicit because
`re.match` anchors at position 0 anyway. -/
inductive Rx where
  | eps
  | one (c : CClass)
  | seq (a b : Rx)
  | rep (c : CClass) (lo : Nat) (hi : Option Nat)
  | endAnchor
deriving DecidableEq

/-- All possible unconsumed suffixes after matching `r` at the start of `s`.
`$` succeeds at the end of the string or just before a sole trailing
newline, as in Python. -/
def matchRem : Rx → List Char → List (List Char)
  | .eps, s => [s]
  | .one _, [] => []
  | .one c, ch :: rest => if memC c ch then [rest] else []
  | .seq a b, s => (matchRem a s).flatMap (matchRem b)
  | .rep c lo hi, s =>
      let m := (s.takeWhile (memC c)).length
      let top := match hi with | none => m | some h => min h m
      (List.range (top + 1 - lo)).map (fun j => s.drop (lo + j))
  | .endAnchor, s => if s = [] ∨ s = ['\n'] then [s] else []

/-- `is_valid(value, pattern)`: `True` when there is no pattern, else
`re.match(pattern, value) is not None` — a match anchored at position 0,
not required to consume the whole value. -/
def is_valid (value : String) (pattern : Option Rx) : Bool :=
  match pattern with
  | none => true
  | some p => !(matchRem p value.data).isEmpty

/-! ## The registration schema -/

def letterHyphen : CClass := .ranges [('A', 'Z'), ('a', 'z')] ['-']

def letterSpaceHyphen : CClass := .ranges [('A', 'Z'), ('a', 'z')] ('-' :: wsChars)

def alnumC : CClass := .ranges [('A', 'Z'), ('a', 'z'), ('0', '9')] []

def digitC : CClass := .ranges [('0', '9')] []

def firstNamePattern : Rx := .seq (.rep letterHyphen 1 none) .endAnchor

def lastNamePattern : Rx := .seq (.rep letterHyphen 2 none) .endAnchor

def countryPattern : Rx := .seq (.rep letterSpaceHyphen 2 none) .endAnchor

def passportPattern : Rx := .seq (.rep alnumC 6 (some 20)) .endAnchor

def fundsPattern : Rx := .seq (.rep .dot 3 none) .endAnchor

def experiencePattern : Rx := .seq (.rep digitC 1 (some 2)) .endAnchor

/-- One schema entry.  `validateStr` is the raw pattern string (used when
building the explain prompt), `validate` its meaning as a regex. -/
structure Field where
  key : String
  question : String
  required : Bool
  help : String
  validateStr : String
  validate : Option Rx
deriving DecidableEq

def SCHEMA : List Field :=
  [⟨"first_name", "Please enter your First Name (as in your ID):", true,
    "Type your legal first name exactly as it appears in your ID.",
    "^[A-Za-z\\-]\x7b1,\x7d$", some firstNamePattern⟩,
   ⟨"last_name", "Please enter your Last Name (as in your ID):", true,
    "Type your legal last name exactly as it appears in your ID. Hyphen is allowed.",
    "^[A-Za-z\\-]\x7b2,\x7d$", some lastNamePattern⟩,
   ⟨"country", "Country of tax residency:", true,
    "Where you are legally required to pay taxes.",
    "^[A-Za-z\\s\\-]\x7b2,\x7d$", some countryPattern⟩,
   ⟨"passport_number", "Passport number (no spaces):", true,
    "Found on the photo page. Letters and digits only.",
    "^[A-Za-z0-9]\x7b6,20\x7d$", some passportPattern⟩,
   ⟨"source_of_funds", "Source of funds (salary/business/investments/etc.):", true,
    "Briefly and truthfully describe where your funds come from.",
    "^.\x7b3,\x7d$", some fundsPattern⟩,
   ⟨"investment_experience_years", "Investment experience in years (integer, 0 if none):", false,
    "If you have no experience, enter 0.",
    "^\\d\x7b1,2\x7d$", some experiencePattern⟩]

/-! ## Gateway prompt builders -/

/-- The messages `explain_field` sends: the system prompt plus one user
message built from the current field's metadata. -/
def explainMsgs (field : Field) (user_utterance : Option String) : List Msg :=
  [sysMsg,
   ⟨"user",
    "Explain to the user the CURRENT form field and how to fill it correctly. " ++
    "Be brief and practical.\n" ++
    "Field question: " ++ field.question ++ "\n" ++
    "Hint: " ++ field.help ++ "\n" ++
    "Regex format: " ++ field.validateStr ++ "\n" ++
    "User question: " ++ user_utterance.getD ""⟩]

def explain_field (svc : ServiceFun) (field : Field) (user_utterance : Option String) : String :=
  llm svc (explainMsgs field user_utterance)

def jsonEscChar (c : Char) : String :=
  if c = '"' then "\\\"" else if c = '\\' then "\\\\"
  else if c = '\n' then "\\n" else if c = '\t' then "\\t"
  else if c = '\r' then "\\r" else String.singleton c

def jsonEscape (s : String) : String := String.join (s.data.map jsonEscChar)

/-- `json.dumps` of the answers dict (`ensure_ascii=False`, default
separators), iterating keys in insertion order. -/
def jsonDumps (d : List (String × String)) : String :=
  "\x7b" ++
  String.intercalate ", "
    (d.map (fun kv => "\"" ++ jsonEscape kv.1 ++ "\": \"" ++ jsonEscape kv.2 ++ "\"")) ++
  "\x7d"

/-- The messages `summarize_answers` sends: the system prompt plus one user
message carrying the collected answers as JSON. -/
def summarizeMsgs (answers : List (String × String)) : List Msg :=
  [sysMsg,
   ⟨"user",
    "Create a short, clear human summary of the registration answers for final user confirmation. " ++
    "Do not add any new data; rephrase only.\n" ++
    "Data: " ++ jsonDumps answers⟩]

def summarize_answers (svc : ServiceFun) (answers : List (String × String)) : String :=
  llm svc (summarizeMsgs answers)

/-! ## The field-collection state machine (`run_registration`) -/

/-- Python dict assignment `d[k] = v`: update in place when the key is
present (keeping its position), append otherwise. -/
def dictInsert (d : List (String × String)) (k v : String) : List (String × String) :=
  if d.any (fun kv => kv.1 = k) then
    d.map (fun kv => if kv.1 = k then (k, v) else kv)
  else d ++ [(k, v)]

/-- The mutable state of one session: `answers` is the Python dict,
`dialog` is `dialog_ctx`; `calls` records the message list of every `llm`
call made so far, `validCalls` every `(value, pattern)` the validator
`is_valid` was invoked on. -/
structure Session where
  answers : List (String × String)
  dialog : List Msg
  calls : List (List Msg)
  validCalls : List (String × Option Rx)
deriving DecidableEq

/-- Record an accepted value: `answers[key] = u` and the prompt→answer pair
appended to the conversation log. -/
def acceptValue (st : Session) (f : Field) (u : String) : Session :=
  { st with
    answers := dictInsert st.answers f.key u,
    dialog := st.dialog ++ [⟨"user", f.question ++ " -> " ++ u⟩] }

inductive Outcome where
  | completed
  | cancelledQuit
  | cancelledConfirm
  | outOfInput
deriving DecidableEq

/-- Result of a run: the terminal outcome, the final JSON record if one was
emitted, the input lines never read, and the final session state. -/
structure RunResult where
  outcome : Outcome
  emitted : Option (List (String × String))
  leftover : List String
  final : Session
deriving DecidableEq

/-- The confirmation phase: summarize the answers via the gateway, read one
line; `"yes"` (stripped, lowered) emits the answers, anything else cancels. -/
def confirmPhase (svc : ServiceFun) (inputs : List String) (st : Session) : RunResult :=
  let st1 : Session := { st with calls := st.calls ++ [summarizeMsgs st.answers] }
  match inputs with
  | [] => ⟨.outOfInput, none, [], st1⟩
  | line :: rest =>
      if pyLower (pyStrip line) = "yes" then ⟨.completed, some st1.answers, rest, st1⟩
      else ⟨.cancelledConfirm, none, rest, st1⟩

/-- The per-field loop of `run_registration`: for the current field, read a
line, strip it, handle "quit"/"help", the required-and-empty check, the
regex validation, and on acceptance record the answer and move to the next
field; after the last field run the confirmation phase. -/
def runFields (svc : ServiceFun) : List Field → List String → Session → RunResult
  | [], inputs, st => confirmPhase svc inputs st
  | _ :: _, [], st => ⟨.outOfInput, none, [], st⟩
  | f :: fs, line :: rest, st =>
      let u := pyStrip line
      if pyLower u = "quit" then
        ⟨.cancelledQuit, none, rest, st⟩
      else if pyLower u = "help" then
        runFields svc (f :: fs) rest { st with calls := st.calls ++ [explainMsgs f none] }
      else if u = "" then
        if f.required then runFields svc (f :: fs) rest st
        else runFields svc fs rest (acceptValue st f u)
      else
        let st1 : Session := { st with validCalls := st.validCalls ++ [(u, f.validate)] }
        if is_valid u f.validate then runFields svc fs rest (acceptValue st1 f u)
        else runFields svc (f :: fs) rest st1

/-- `run_registration()`: answers start empty, the conversation log starts
with the system message, then the fields are collected in schema order. -/
def run_registration (svc : ServiceFun) (inputs : List String) : RunResult :=
  runFields svc SCHEMA inputs ⟨[], [sysMsg], [], []⟩

/-- A service stub that always replies successfully. -/
def svcOk : ServiceFun := fun _ => .ok (some "ok")

/-- The initial session state of `run_registration`. -/
def initSession : Session := ⟨[], [sysMsg], [], []⟩

/-! ## One-step reduction lemmas for the field loop -/

lemma step_quit (svc : ServiceFun) (f : Field) (fs : List Field) (line : String)
    (rest : List String) (st : Session) (h : pyLower (pyStrip line) = "quit") :
    runFields svc (f :: fs) (line :: rest) st = ⟨.cancelledQuit, none, rest, st⟩ := by
  simp [runFields, h]

lemma step_help (svc : ServiceFun) (f : Field) (fs : List Field) (line : String)
    (rest : List String) (st : Session) (h : pyLower (pyStrip line) = "help") :
    runFields svc (f :: fs) (line :: rest) st =
      runFields svc (f :: fs) rest { st with calls := st.calls ++ [explainMsgs f none] } := by
  simp only [runFields, h]
  simp

lemma step_required_empty (svc : ServiceFun) (f : Field) (fs : List Field) (line : String)
    (rest : List String) (st : Session) (hreq : f.required = true) (h : pyStrip line = "") :
    runFields svc (f :: fs) (line :: rest) st = runFields svc (f :: fs) rest st := by
  simp only [runFields, h, hreq]
  rw [if_neg (by decide), if_neg (by decide)]
  simp

lemma step_optional_empty (svc : ServiceFun) (f : Field) (fs : List Field) (line : String)
    (rest : List String) (st : Session) (hopt : f.required = false) (h : pyStrip line = "") :
    runFields svc (f :: fs) (line :: rest) st = runFields svc fs rest (acceptValue st f "") := by
  simp only [runFields, h, hopt]
  rw [if_neg (by decide), if_neg (by decide)]
  simp

lemma step_valid (svc : ServiceFun) (f : Field) (fs : List Field) (line : String)
    (rest : List String) (st : Session)
    (hq : pyLower (pyStrip line) ≠ "quit") (hh : pyLower (pyStrip line) ≠ "help")
    (he : pyStrip line ≠ "") (hv : is_valid (pyStrip line) f.validate = true) :
    runFields svc (f :: fs) (line :: rest) st =
      runFields svc fs rest
        (acceptValue { st with validCalls := st.validCalls ++ [(pyStrip line, f.validate)] }
          f (pyStrip line)) := by
  simp only [runFields]
  rw [if_neg hq, if_neg hh, if_neg he, if_pos hv]

lemma step_invalid (svc : ServiceFun) (f : Field) (fs : List Field) (line : String)
    (rest : List String) (st : Session)
    (hq : pyLower (pyStrip line) ≠ "quit") (hh : pyLower (pyStrip line) ≠ "help")
    (he : pyStrip line ≠ "") (hv : is_valid (pyStrip line) f.validate = false) :
    runFields svc (f :: fs) (line :: rest) st =
      runFields svc (f :: fs) rest
        { st with validCalls := st.validCalls ++ [(pyStrip line, f.validate)] } := by
  simp only [runFields]
  rw [if_neg hq, if_neg hh, if_neg he, if_neg (by simp [hv])]

/-! ## Helper lemmas about `pyStrip` and `dictInsert` -/

lemma pyStrip_data (s : String) :
    (pyStrip s).data = List.rdropWhile isPySpace (s.data.dropWhile isPySpace) := rfl

lemma dropWhile_rdropWhile_self {l : List Char}
    (h : l.dropWhile isPySpace = l) :
    (List.rdropWhile isPySpace l).dropWhile isPySpace = List.rdropWhile isPySpace l := by
  rcases hV : List.rdropWhile isPySpace l with _ | ⟨c, v⟩
  · simp
  · rcases List.rdropWhile_prefix isPySpace l with ⟨t, ht⟩
    have hl : l = c :: (v ++ t) := by rw [← ht, hV]; simp
    by_cases hc : isPySpace c
    · exfalso
      rw [hl, List.dropWhile_cons, if_pos hc] at h
      have hlen := congrArg List.length h
      have hle := (List.dropWhile_sublist (l := v ++ t) isPySpace).length_le
      rw [List.length_cons] at hlen
      omega
    · simp [List.dropWhile_cons, hc]

lemma pyStrip_idem (s : String) : pyStrip (pyStrip s) = pyStrip s := by
  have hu : (s.data.dropWhile isPySpace).dropWhile isPySpace = s.data.dropWhile isPySpace :=
    List.dropWhile_idempotent isPySpace s.data
  have hv := dropWhile_rdropWhile_self hu
  show String.mk
      (List.rdropWhile isPySpace
        ((List.rdropWhile isPySpace (s.data.dropWhile isPySpace)).dropWhile isPySpace)) =
    String.mk (List.rdropWhile isPySpace (s.data.dropWhile isPySpace))
  rw [hv, List.rdropWhile_idempotent]

lemma pyStrip_empty_of_all_space (s : String) (h : ∀ c ∈ s.data, isPySpace c = true) :
    pyStrip s = "" := by
  have h1 : s.data.dropWhile isPySpace = [] :=
    List.dropWhile_eq_nil_iff.mpr (fun x hx => h x hx)
  show String.mk (List.rdropWhile isPySpace (s.data.dropWhile isPySpace)) = ""
  rw [h1]
  rfl

lemma dictInsert_of_fresh (d : List (String × String)) (k v : String)
    (h : ∀ kv ∈ d, kv.1 ≠ k) : dictInsert d k v = d ++ [(k, v)] := by
  have hfalse : (d.any fun kv => kv.1 = k) = false := by
    rw [List.any_eq_false]
    intro kv hkv
    simpa using h kv hkv
  simp [dictInsert, hfalse]

lemma mem_dictInsert (d : List (String × String)) (k v : String) (kv : String × String)
    (h : kv ∈ dictInsert d k v) : kv ∈ d ∨ kv = (k, v) := by
  unfold dictInsert at h
  split at h
  · rcases List.mem_map.mp h with ⟨kv', hkv', heq⟩
    by_cases hk : kv'.1 = k
    · right
      rw [← heq]
      simp [hk]
    · left
      rw [if_neg hk] at heq
      rw [← heq]
      exact hkv'
  · rcases List.mem_append.mp h with h1 | h2
    · left
      exact h1
    · right
      simpa using h2

/-! ## Run-level invariants -/

/-- Every gateway call the loop records consists of the system message plus
one user message (the conversation log is never passed along). -/
lemma runFields_calls_pair (svc : ServiceFun) :
    ∀ (inputs : List String) (fs : List Field) (st : Session),
      (∀ call ∈ st.calls, ∃ c, call = [sysMsg, Msg.mk "user" c]) →
      ∀ call ∈ (runFields svc fs inputs st).final.calls,
        ∃ c, call = [sysMsg, Msg.mk "user" c] := by
  intro inputs
  induction inputs with
  | nil =>
    intro fs st hst call hcall
    cases fs with
    | nil =>
      simp only [runFields, confirmPhase] at hcall
      rcases List.mem_append.mp hcall with h1 | h2
      · exact hst call h1
      · rw [List.mem_singleton] at h2
        subst h2
        exact ⟨_, rfl⟩
    | cons f fs' =>
      simp only [runFields] at hcall
      exact hst call hcall
  | cons line rest ih =>
    intro fs st hst call hcall
    cases fs with
    | nil =>
      simp only [runFields, confirmPhase] at hcall
      have hd : call ∈ st.calls ∨ call = summarizeMsgs st.answers := by
        by_cases hy : pyLower (pyStrip line) = "yes" <;> simp [hy] at hcall <;> exact hcall
      rcases hd with h1 | h2
      · exact hst call h1
      · subst h2
        exact ⟨_, rfl⟩
    | cons f fs' =>
      by_cases hq : pyLower (pyStrip line) = "quit"
      · rw [step_quit svc f fs' line rest st hq] at hcall
        exact hst call hcall
      · by_cases hh : pyLower (pyStrip line) = "help"
        · rw [step_help svc f fs' line rest st hh] at hcall
          refine ih (f :: fs') { st with calls := st.calls ++ [explainMsgs f none] }
            ?_ call hcall
          intro c hc
          rcases List.mem_append.mp hc with h1 | h2
          · exact hst c h1
          · rw [List.mem_singleton] at h2
            subst h2
            exact ⟨_, rfl⟩
        · by_cases he : pyStrip line = ""
          · by_cases hreq : f.required = true
            · rw [step_required_empty svc f fs' line rest st hreq he] at hcall
              exact ih (f :: fs') st hst call hcall
            · have hreq' : f.required = false := by simpa using hreq
              rw [step_optional_empty svc f fs' line rest st hreq' he] at hcall
              exact ih fs' (acceptValue st f "") (fun c hc => hst c hc) call hcall
          · by_cases hv : is_valid (pyStrip line) f.validate = true
            · rw [step_valid svc f fs' line rest st hq hh he hv] at hcall
              exact ih fs'
                (acceptValue { st with validCalls := st.validCalls ++ [(pyStrip line, f.validate)] }
                  f (pyStrip line))
                (fun c hc => hst c hc) call hcall
            · have hv' : is_valid (pyStrip line) f.validate = false := by simpa using hv
              rw [step_invalid svc f fs' line rest st hq hh he hv'] at hcall
              exact ih (f :: fs')
                { st with validCalls := st.validCalls ++ [(pyStrip line, f.validate)] }
                (fun c hc => hst c hc) call hcall

/-- When a run completes, the emitted record's keys are the still-pending
schema keys appended, in schema order, to the keys already answered. -/
lemma runFields_completed_keys (svc : ServiceFun) :
    ∀ (inputs : List String) (fs : List Field) (st : Session),
      (∀ f ∈ fs, ∀ kv ∈ st.answers, kv.1 ≠ f.key) →
      (fs.map Field.key).Nodup →
      (runFields svc fs inputs st).outcome = .completed →
      ∃ d, (runFields svc fs inputs st).emitted = some d ∧
        d.map Prod.fst = st.answers.map Prod.fst ++ fs.map Field.key := by
  intro inputs
  induction inputs with
  | nil =>
    intro fs st hfresh hnodup hout
    cases fs with
    | nil => simp [runFields, confirmPhase] at hout
    | cons f fs' => simp [runFields] at hout
  | cons line rest ih =>
    intro fs st hfresh hnodup hout
    cases fs with
    | nil =>
      by_cases hy : pyLower (pyStrip line) = "yes"
      · refine ⟨st.answers, ?_, by simp⟩
        simp [runFields, confirmPhase, hy]
      · simp [runFields, confirmPhase, hy] at hout
    | cons f fs' =>
      by_cases hq : pyLower (pyStrip line) = "quit"
      · rw [step_quit svc f fs' line rest st hq] at hout
        simp at hout
      · by_cases hh : pyLower (pyStrip line) = "help"
        · rw [step_help svc f fs' line rest st hh] at hout ⊢
          exact ih (f :: fs') _ hfresh hnodup hout
        · have hkey : ∀ kv ∈ st.answers, kv.1 ≠ f.key := hfresh f (by simp)
          have hnodup' : (fs'.map Field.key).Nodup := by
            rw [List.map_cons, List.nodup_cons] at hnodup
            exact hnodup.2
          have hfnot : f.key ∉ fs'.map Field.key := by
            rw [List.map_cons, List.nodup_cons] at hnodup
            exact hnodup.1
          have hfresh' : ∀ (u : String) (g : Field), g ∈ fs' →
              ∀ kv ∈ st.answers ++ [(f.key, u)], kv.1 ≠ g.key := by
            intro u g hg kv hkv
            rcases List.mem_append.mp hkv with h1 | h2
            · exact hfresh g (by simp [hg]) kv h1
            · rw [List.mem_singleton] at h2
              subst h2
              intro hcontra
              apply hfnot
              rw [show f.key = g.key from hcontra]
              exact List.mem_map.mpr ⟨g, hg, rfl⟩
          by_cases he : pyStrip line = ""
          · by_cases hreq : f.required = true
            · rw [step_required_empty svc f fs' line rest st hreq he] at hout ⊢
              exact ih _ _ hfresh hnodup hout
            · have hreq' : f.required = false := by simpa using hreq
              rw [step_optional_empty svc f fs' line rest st hreq' he] at hout ⊢
              have hacc : (acceptValue st f "").answers = st.answers ++ [(f.key, "")] := by
                simp [acceptValue, dictInsert_of_fresh st.answers f.key "" hkey]
              rcases ih fs' _ (by rw [hacc]; exact fun g hg => hfresh' "" g hg) hnodup' hout
                with ⟨d, hd1, hd2⟩
              refine ⟨d, hd1, ?_⟩
              rw [hd2, hacc]
              simp
          · by_cases hv : is_valid (pyStrip line) f.validate = true
            · rw [step_valid svc f fs' line rest st hq hh he hv] at hout ⊢
              have hacc : (acceptValue
                    { st with validCalls := st.validCalls ++ [(pyStrip line, f.validate)] }
                    f (pyStrip line)).answers = st.answers ++ [(f.key, pyStrip line)] := by
                simp [acceptValue, dictInsert_of_fresh st.answers f.key (pyStrip line) hkey]
              rcases ih fs' _ (by rw [hacc]; exact fun g hg => hfresh' (pyStrip line) g hg)
                hnodup' hout with ⟨d, hd1, hd2⟩
              refine ⟨d, hd1, ?_⟩
              rw [hd2, hacc]
              simp
            · have hv' : is_valid (pyStrip line) f.validate = false := by simpa using hv
              rw [step_invalid svc f fs' line rest st hq hh he hv'] at hout ⊢
              exact ih _ _ hfresh hnodup hout

/-- Every value ever stored in the answers dict is a stripped input line,
so stripping it again changes nothing. -/
lemma runFields_answers_stripped (svc : ServiceFun) :
    ∀ (inputs : List String) (fs : List Field) (st : Session),
      (∀ kv ∈ st.answers, pyStrip kv.2 = kv.2) →
      ∀ kv ∈ (runFields svc fs inputs st).final.answers, pyStrip kv.2 = kv.2 := by
  intro inputs
  induction inputs with
  | nil =>
    intro fs st hst kv hkv
    cases fs with
    | nil =>
      simp only [runFields, confirmPhase] at hkv
      exact hst kv hkv
    | cons f fs' =>
      simp only [runFields] at hkv
      exact hst kv hkv
  | cons line rest ih =>
    intro fs st hst kv hkv
    cases fs with
    | nil =>
      simp only [runFields, confirmPhase] at hkv
      by_cases hy : pyLower (pyStrip line) = "yes" <;> simp [hy] at hkv <;> exact hst kv hkv
    | cons f fs' =>
      have haccept : ∀ (stA : Session) (u : String), stA.answers = st.answers →
          pyStrip u = u → ∀ kv2 ∈ (acceptValue stA f u).answers, pyStrip kv2.2 = kv2.2 := by
        intro stA u hA hu kv2 hkv2
        rcases mem_dictInsert stA.answers f.key u kv2 (by simpa [acceptValue] using hkv2)
          with h1 | h2
        · exact hst kv2 (hA ▸ h1)
        · rw [h2]
          exact hu
      by_cases hq : pyLower (pyStrip line) = "quit"
      · rw [step_quit svc f fs' line rest st hq] at hkv
        exact hst kv hkv
      · by_cases hh : pyLower (pyStrip line) = "help"
        · rw [step_help svc f fs' line rest st hh] at hkv
          exact ih (f :: fs') { st with calls := st.calls ++ [explainMsgs f none] }
            (fun c hc => hst c hc) kv hkv
        · by_cases he : pyStrip line = ""
          · by_cases hreq : f.required = true
            · rw [step_required_empty svc f fs' line rest st hreq he] at hkv
              exact ih (f :: fs') st hst kv hkv
            · have hreq' : f.required = false := by simpa using hreq
              rw [step_optional_empty svc f fs' line rest st hreq' he] at hkv
              exact ih fs' (acceptValue st f "") (haccept st "" rfl rfl) kv hkv
          · by_cases hv : is_valid (pyStrip line) f.validate = true
            · rw [step_valid svc f fs' line rest st hq hh he hv] at hkv
              exact ih fs'
                (acceptValue { st with validCalls := st.validCalls ++ [(pyStrip line, f.validate)] }
                  f (pyStrip line))
                (haccept { st with validCalls := st.validCalls ++ [(pyStrip line, f.validate)] }
                  (pyStrip line) rfl (pyStrip_idem line)) kv hkv
            · have hv' : is_valid (pyStrip line) f.validate = false := by simpa using hv
              rw [step_invalid svc f fs' line rest st hq hh he hv'] at hkv
              exact ih (f :: fs')
                { st with validCalls := st.validCalls ++ [(pyStrip line, f.validate)] }
                (fun c hc => hst c hc) kv hkv

/-! ## Claims -/

/-- C4: at every field, an input line that case-insensitively equals "quit"
ends the session at once in the quit-cancelled terminal state: nothing is
emitted, no further input line is read, and the session state (answers,
log, gateway calls) is left as it was. -/
theorem quit_cancels_session (svc : ServiceFun) (f : Field) (fs : List Field)
    (line : String) (rest : List String) (st : Session)
    (h : pyLower (pyStrip line) = "quit") :
    runFields svc (f :: fs) (line :: rest) st = ⟨.cancelledQuit, none, rest, st⟩ :=
  step_quit svc f fs line rest st h

theorem quit_cancels_session_witness :
    run_registration svcOk ["  QUIT  "] = ⟨.cancelledQuit, none, [], initSession⟩ :=
  quit_cancels_session svcOk _ _ "  QUIT  " [] initSession (by decide)

/-- C6: at every required field, an empty (after stripping) input line does
not advance past the field: the state — in particular the answers and the
recorded validator invocations (the pattern check is not run on this
input) — is unchanged and the same field is prompted again. -/
theorem required_empty_repeats_field (svc : ServiceFun) (f : Field) (fs : List Field)
    (line : String) (rest : List String) (st : Session)
    (hreq : f.required = true) (h : pyStrip line = "") :
    runFields svc (f :: fs) (line :: rest) st = runFields svc (f :: fs) rest st :=
  step_required_empty svc f fs line rest st hreq h

theorem required_empty_repeats_field_witness :
    runFields svcOk SCHEMA ["   "] initSession = runFields svcOk SCHEMA [] initSession := by
  have h := required_empty_repeats_field svcOk
    ⟨"first_name", "Please enter your First Name (as in your ID):", true,
     "Type your legal first name exactly as it appears in your ID.",
     "^[A-Za-z\\-]\x7b1,\x7d$", some firstNamePattern⟩
    (SCHEMA.drop 1) "   " [] initSession rfl (by decide)
  exact h

/-- C7: in the confirmation phase, after the summarize call is issued, one
line of input is read; if it strips-and-lowers to "yes" the outcome is
`completed` with the Answer Set emitted as the final record, and for any
other input the outcome is `cancelledConfirm` with nothing emitted. -/
theorem confirmation_yes_or_cancel (svc : ServiceFun) (line : String)
    (rest : List String) (st : Session) :
    confirmPhase svc (line :: rest) st =
      if pyLower (pyStrip line) = "yes" then
        ⟨.completed, some st.answers, rest, { st with calls := st.calls ++ [summarizeMsgs st.answers] }⟩
      else
        ⟨.cancelledConfirm, none, rest, { st with calls := st.calls ++ [summarizeMsgs st.answers] }⟩ := by
  simp only [confirmPhase]

/-- C9: the gateway call never propagates a service failure: whenever the
underlying request raises (is an `Except.error`), `llm` — and with it
`explain_field` and `summarize_answers` — returns the readable placeholder
string naming the error instead. -/
theorem llm_converts_errors :
    (∀ (svc : ServiceFun) (messages : List Msg) (e : String),
       svc messages = .error e → llm svc messages = "(LLM error: " ++ e ++ ")") ∧
    (∀ (svc : ServiceFun) (f : Field) (u : Option String) (e : String),
       svc (explainMsgs f u) = .error e →
         explain_field svc f u = "(LLM error: " ++ e ++ ")") ∧
    (∀ (svc : ServiceFun) (a : List (String × String)) (e : String),
       svc (summarizeMsgs a) = .error e →
         summarize_answers svc a = "(LLM error: " ++ e ++ ")") := by
  refine ⟨?_, ?_, ?_⟩
  · intro svc messages e h
    simp [llm, h]
  · intro svc f u e h
    simp [explain_field, llm, h]
  · intro svc a e h
    simp [summarize_answers, llm, h]

theorem llm_converts_errors_witness :
    llm (fun _ => .error "boom") [] = "(LLM error: boom)" :=
  llm_converts_errors.1 (fun _ => .error "boom") [] "boom" rfl

/-- C1 (counterexample to the claim as stated): with valid answers for the
five required fields, an empty line at the optional
`investment_experience_years` field and a "yes" confirmation, the session
completes and the emitted record DOES contain the optional field's key,
bound to the empty string — the key is not absent. -/
theorem optional_empty_key_present_counterexample :
    (run_registration svcOk ["Alice", "Smith", "Germany", "AB123456", "salary", "", "yes"]).outcome
        = .completed ∧
    (run_registration svcOk ["Alice", "Smith", "Germany", "AB123456", "salary", "", "yes"]).emitted
        = some [("first_name", "Alice"), ("last_name", "Smith"), ("country", "Germany"),
                ("passport_number", "AB123456"), ("source_of_funds", "salary"),
                ("investment_experience_years", "")] := by
  constructor <;> rfl

/-- C1 (amended): at an optional field, an empty (after stripping) input
line advances the Controller to the next field, but the field's key IS
recorded in the Answer Set with the empty string as its value (and a
prompt→answer log entry is appended), so the key appears in the emitted
final record with an empty value. -/
theorem optional_empty_records_empty_value (svc : ServiceFun) (f : Field) (fs : List Field)
    (line : String) (rest : List String) (st : Session)
    (hopt : f.required = false) (h : pyStrip line = "") :
    runFields svc (f :: fs) (line :: rest) st = runFields svc fs rest (acceptValue st f "") :=
  step_optional_empty svc f fs line rest st hopt h

theorem optional_empty_records_empty_value_witness :
    runFields svcOk
      [⟨"investment_experience_years", "Investment experience in years (integer, 0 if none):",
        false, "If you have no experience, enter 0.", "^\\d\x7b1,2\x7d$", some experiencePattern⟩]
      ["", "yes"] initSession =
    runFields svcOk [] ["yes"]
      (acceptValue initSession
        ⟨"investment_experience_years", "Investment experience in years (integer, 0 if none):",
         false, "If you have no experience, enter 0.", "^\\d\x7b1,2\x7d$", some experiencePattern⟩
        "") :=
  optional_empty_records_empty_value svcOk _ [] "" ["yes"] initSession rfl (by decide)

/-- C5: at every field, a "help" input (case-insensitive, after stripping)
issues exactly one Gateway explain call for the current field and leaves
the Answer Set, the conversation log and the current field unchanged — the
same field list is prompted again with the same session state apart from
the recorded gateway call; iterating, `n` consecutive "help" inputs issue
exactly `n` explain calls and still leave the state unchanged. -/
theorem help_leaves_state_unchanged :
    (∀ (svc : ServiceFun) (f : Field) (fs : List Field) (line : String)
       (rest : List String) (st : Session), pyLower (pyStrip line) = "help" →
       runFields svc (f :: fs) (line :: rest) st =
         runFields svc (f :: fs) rest { st with calls := st.calls ++ [explainMsgs f none] }) ∧
    (∀ (n : Nat) (svc : ServiceFun) (f : Field) (fs : List Field) (line : String)
       (rest : List String) (st : Session), pyLower (pyStrip line) = "help" →
       runFields svc (f :: fs) (List.replicate n line ++ rest) st =
         runFields svc (f :: fs) rest
           { st with calls := st.calls ++ List.replicate n (explainMsgs f none) }) := by
  constructor
  · intro svc f fs line rest st h
    exact step_help svc f fs line rest st h
  · intro n svc f fs line rest st h
    induction n generalizing st with
    | zero => simp
    | succ k ih =>
      rw [List.replicate_succ, List.cons_append,
        step_help svc f fs line (List.replicate k line ++ rest) st h, ih]
      simp [List.replicate_succ, List.append_assoc]

theorem help_leaves_state_unchanged_witness :
    runFields svcOk SCHEMA ["help", "help"] initSession =
      runFields svcOk SCHEMA []
        { initSession with
          calls := initSession.calls ++
            List.replicate 2 (explainMsgs
              ⟨"first_name", "Please enter your First Name (as in your ID):", true,
               "Type your legal first name exactly as it appears in your ID.",
               "^[A-Za-z\\-]\x7b1,\x7d$", some firstNamePattern⟩ none) } :=
  help_leaves_state_unchanged.2 2 svcOk
    ⟨"first_name", "Please enter your First Name (as in your ID):", true,
     "Type your legal first name exactly as it appears in your ID.",
     "^[A-Za-z\\-]\x7b1,\x7d$", some firstNamePattern⟩
    (SCHEMA.drop 1) "help" [] initSession (by decide)

/-- C3: the Validator accepts a value against a present pattern iff the
pattern matches starting at position 0 of the value; any such match — even
one leaving unconsumed trailing content — suffices, so trailing content
after a matched prefix never causes rejection (`re.match`, not fullmatch,
semantics).  In particular "AB12345extra" is accepted against the 6–20
alphanumeric passport rule, and a pattern without the `$` anchor accepts a
value it matches only a strict prefix of. -/
theorem validator_accepts_iff_prefix_match :
    (∀ (value : String) (p : Rx),
       is_valid value (some p) = true ↔ matchRem p value.data ≠ []) ∧
    (∀ (value : String) (p : Rx) (r : List Char),
       r ∈ matchRem p value.data → is_valid value (some p) = true) ∧
    is_valid "AB12345extra" (some passportPattern) = true ∧
    is_valid "abcdef" (some (.rep letterHyphen 1 (some 3))) = true := by
  have h1 : ∀ (value : String) (p : Rx),
      is_valid value (some p) = true ↔ matchRem p value.data ≠ [] := by
    intro v p
    simp [is_valid, List.isEmpty_iff]
  refine ⟨h1, ?_, by decide, by decide⟩
  intro v p r hr
  exact (h1 v p).mpr (List.ne_nil_of_mem hr)

theorem validator_accepts_iff_prefix_match_witness :
    is_valid "abc" (some (.rep letterHyphen 1 none)) = true :=
  validator_accepts_iff_prefix_match.2.1 "abc" (.rep letterHyphen 1 none) ['b', 'c'] (by decide)

/-- C2 (counterexample to the claim as stated): after "Alice" is accepted
for the first field, the conversation log holds the prompt→answer entry for
it, yet the explain call made by the subsequent "help" — the only gateway
call of the session — does not contain that log entry among the messages it
sends: the conversation log is not supplied to the Gateway. -/
theorem gateway_omits_conversation_log_counterexample :
    (run_registration svcOk ["Alice", "help"]).final.calls =
      [explainMsgs
        ⟨"last_name", "Please enter your Last Name (as in your ID):", true,
         "Type your legal last name exactly as it appears in your ID. Hyphen is allowed.",
         "^[A-Za-z\\-]\x7b2,\x7d$", some lastNamePattern⟩ none] ∧
    Msg.mk "user" "Please enter your First Name (as in your ID): -> Alice"
        ∈ (run_registration svcOk ["Alice", "help"]).final.dialog ∧
    Msg.mk "user" "Please enter your First Name (as in your ID): -> Alice"
        ∉ explainMsgs
            ⟨"last_name", "Please enter your Last Name (as in your ID):", true,
             "Type your legal last name exactly as it appears in your ID. Hyphen is allowed.",
             "^[A-Za-z\\-]\x7b2,\x7d$", some lastNamePattern⟩ none :=
  ⟨rfl, by decide, by decide⟩

/-- C2 (amended): the conversation log is accumulated during the session
but never supplied to the Gateway: every explain and summarize call sends
exactly two messages — the fixed system message plus one freshly built user
message — independent of the conversation log. -/
theorem gateway_calls_are_system_plus_single_user (svc : ServiceFun)
    (inputs : List String) (call : List Msg)
    (h : call ∈ (run_registration svc inputs).final.calls) :
    ∃ c, call = [sysMsg, Msg.mk "user" c] :=
  runFields_calls_pair svc inputs SCHEMA initSession
    (by intro c hc; simp [initSession] at hc) call h

theorem gateway_calls_are_system_plus_single_user_witness :
    (explainMsgs
      ⟨"first_name", "Please enter your First Name (as in your ID):", true,
       "Type your legal first name exactly as it appears in your ID.",
       "^[A-Za-z\\-]\x7b1,\x7d$", some firstNamePattern⟩ none).length = 2 := by
  have h := gateway_calls_are_system_plus_single_user svcOk ["help"]
    (explainMsgs
      ⟨"first_name", "Please enter your First Name (as in your ID):", true,
       "Type your legal first name exactly as it appears in your ID.",
       "^[A-Za-z\\-]\x7b1,\x7d$", some firstNamePattern⟩ none) (by decide)
  rcases h with ⟨c, hc⟩
  rw [hc]
  rfl

/-- C8: whenever a session completes, the emitted final record contains the
schema keys exactly, in schema order — so of any two keys present, the one
whose field comes earlier in the schema is serialized first. -/
theorem completed_record_keys_in_schema_order (svc : ServiceFun) (inputs : List String)
    (h : (run_registration svc inputs).outcome = .completed) :
    ∃ d, (run_registration svc inputs).emitted = some d ∧
      d.map Prod.fst = SCHEMA.map Field.key := by
  have hrun := runFields_completed_keys svc inputs SCHEMA initSession
    (by intro f hf kv hkv; simp [initSession] at hkv) (by decide) (by exact h)
  simpa [run_registration, initSession] using hrun

theorem completed_record_keys_in_schema_order_witness :
    (run_registration svcOk ["Alice", "Smith", "Germany", "AB123456", "salary", "0", "yes"]).outcome
        = .completed ∧
    ((run_registration svcOk
        ["Alice", "Smith", "Germany", "AB123456", "salary", "0", "yes"]).emitted.getD []).map
      Prod.fst = SCHEMA.map Field.key := by
  have h := completed_record_keys_in_schema_order svcOk
    ["Alice", "Smith", "Germany", "AB123456", "salary", "0", "yes"] (by decide)
  rcases h with ⟨d, hd1, hd2⟩
  exact ⟨by decide, by rw [hd1]; simpa using hd2⟩

/-- C10: user input is stripped of leading and trailing (Python) whitespace
before any processing: a whitespace-only line strips to the empty string;
"  QUIT  " cancels and "  Help " triggers the help flow at any field;
"  YES " confirms; and every value stored in the Answer Set is already
stripped (stripping it again changes nothing). -/
theorem input_stripping_semantics :
    (∀ s : String, (∀ c ∈ s.data, isPySpace c = true) → pyStrip s = "") ∧
    (∀ (svc : ServiceFun) (f : Field) (fs : List Field) (rest : List String) (st : Session),
       runFields svc (f :: fs) ("  QUIT  " :: rest) st = ⟨.cancelledQuit, none, rest, st⟩) ∧
    (∀ (svc : ServiceFun) (f : Field) (fs : List Field) (rest : List String) (st : Session),
       runFields svc (f :: fs) ("  Help " :: rest) st =
         runFields svc (f :: fs) rest { st with calls := st.calls ++ [explainMsgs f none] }) ∧
    (∀ (svc : ServiceFun) (rest : List String) (st : Session),
       (confirmPhase svc ("  YES " :: rest) st).outcome = .completed ∧
       (confirmPhase svc ("  YES " :: rest) st).emitted = some st.answers) ∧
    (∀ (svc : ServiceFun) (inputs : List String) (kv : String × String),
       kv ∈ (run_registration svc inputs).final.answers → pyStrip kv.2 = kv.2) := by
  refine ⟨?_, ?_, ?_, ?_, ?_⟩
  · intro s hws
    exact pyStrip_empty_of_all_space s hws
  · intro svc f fs rest st
    exact step_quit svc f fs "  QUIT  " rest st (by decide)
  · intro svc f fs rest st
    exact step_help svc f fs "  Help " rest st (by decide)
  · intro svc rest st
    constructor <;>
      simp [confirmPhase, show pyLower (pyStrip "  YES ") = "yes" from by decide]
  · intro svc inputs kv h
    exact runFields_answers_stripped svc inputs SCHEMA initSession
      (by intro kv2 hkv2; simp [initSession] at hkv2) kv h

theorem input_stripping_semantics_witness :
    pyStrip " \t " = "" ∧ pyStrip "Alice" = "Alice" :=
  ⟨input_stripping_semantics.1 " \t " (by decide),
   input_stripping_semantics.2.2.2.2 svcOk
     ["Alice", "Smith", "Germany", "AB123456", "salary", "0", "yes"]
     ("first_name", "Alice") (by decide)⟩

end RegBot
